import Mathlib

/-!
Shallow embedding of the vibeplayer playback-orchestration core
(src/app.rs, src/main.rs, src/player.rs, src/library.rs, src/agent.rs,
src/audio_analysis.rs) and proofs about it.

Machine integers are modelled as Nat/Int with explicit truncation where the
source casts; Rust Instants and Durations are modelled as integer
milliseconds; f32 signal values are modelled as rationals where only
comparisons and branch structure matter, and the FFT/RMS floating-point
kernel is kept as an explicit function parameter (its numeric output is
irrelevant to the properties proved here).
-/

namespace Vibeplayer

/-- SongStatus from src/app.rs. -/
inductive SongStatus where
  | Queued
  | Downloading
  | Ready
  | Playing
  | Played
deriving DecidableEq, Repr

/-- Song from src/app.rs (PathBuf as String, Duration as rational seconds). -/
structure SongL where
  title : String
  artist : String
  url : String
  file_path : Option String
  status : SongStatus
  duration : Option ℚ
deriving DecidableEq, Repr

/-- Song::new_queued from src/app.rs. -/
def SongL.new_queued (title artist url : String) : SongL :=
  { title := title, artist := artist, url := url, file_path := none,
    status := SongStatus.Queued, duration := none }

/-- Song::new_downloading from src/app.rs. -/
def SongL.new_downloading (url : String) : SongL :=
  { title := "Loading...", artist := "", url := url, file_path := none,
    status := SongStatus.Downloading, duration := none }

/-- NowPlaying from src/app.rs; instants and durations in integer ms. -/
structure NowPlayingL where
  song : SongL
  started_at : ℤ
  paused_elapsed : ℤ
  paused_at : Option ℤ
deriving DecidableEq, Repr

/-- NowPlaying::elapsed from src/app.rs lines 59-65, with the current wall
clock passed explicitly (self.started_at.elapsed() = now - started_at). -/
def NowPlayingL.elapsed (np : NowPlayingL) (now : ℤ) : ℤ :=
  match np.paused_at with
  | some paused_at => np.paused_elapsed + (paused_at - np.started_at) - np.paused_elapsed
  | none => (now - np.started_at) - np.paused_elapsed

/-- FocusedPanel from src/app.rs. -/
inductive FocusedPanel where
  | Library
  | Queue
deriving DecidableEq, Repr

/-- PlayerCommand from src/app.rs. -/
inductive PlayerCommandL where
  | PlayFile (path title artist url : String) (duration_secs : ℚ)
  | Skip
  | Pause
  | Resume
  | SetVolume (level : ℕ)
deriving DecidableEq, Repr

/-- The fields of AppState (src/app.rs) that the playback orchestration
mutates: queue, library, now-playing, pause flag, volume, panel focus and
the two cursors. -/
structure AppStateL where
  queue : List SongL
  library : List SongL
  current : Option NowPlayingL
  paused : Bool
  volume : ℕ
  focused_panel : FocusedPanel
  library_cursor : ℕ
  queue_cursor : ℕ
deriving DecidableEq, Repr

/-- AppState::new from src/app.rs. -/
def AppStateL.init : AppStateL :=
  { queue := [], library := [], current := none, paused := false,
    volume := 70, focused_panel := FocusedPanel.Library,
    library_cursor := 0, queue_cursor := 0 }

/-- AppState::clamp_cursors from src/app.rs lines 243-254. -/
def AppStateL.clamp_cursors (st : AppStateL) : AppStateL :=
  { st with
    library_cursor :=
      if st.library.isEmpty then 0
      else min st.library_cursor (st.library.length - 1),
    queue_cursor :=
      if st.queue.isEmpty then 0
      else min st.queue_cursor (st.queue.length - 1) }

/-- Rust Iterator::position: index of the first element satisfying p. -/
def position (p : α → Bool) : List α → Option ℕ
  | [] => none
  | a :: l => if p a then some 0 else (position p l).map (· + 1)

/-- The predicate `s.status == SongStatus::Ready` from src/app.rs line 196. -/
def isReady (s : SongL) : Bool := decide (s.status = SongStatus.Ready)

/-- AppState::next_ready_song from src/app.rs lines 195-203: find the first
Ready entry, Vec::remove it, re-clamp the cursors, and return it. -/
def AppStateL.next_ready_song (st : AppStateL) : Option SongL × AppStateL :=
  match position isReady st.queue with
  | some pos =>
      (st.queue[pos]?,
        AppStateL.clamp_cursors { st with queue := st.queue.eraseIdx pos })
  | none => (none, st)

/-- AppState::move_cursor_up from src/app.rs. -/
def AppStateL.move_cursor_up (st : AppStateL) : AppStateL :=
  match st.focused_panel with
  | FocusedPanel.Library =>
      if st.library_cursor > 0 then { st with library_cursor := st.library_cursor - 1 } else st
  | FocusedPanel.Queue =>
      if st.queue_cursor > 0 then { st with queue_cursor := st.queue_cursor - 1 } else st

/-- AppState::move_cursor_down from src/app.rs. -/
def AppStateL.move_cursor_down (st : AppStateL) : AppStateL :=
  match st.focused_panel with
  | FocusedPanel.Library =>
      if st.library.isEmpty then st
      else { st with library_cursor := min (st.library_cursor + 1) (st.library.length - 1) }
  | FocusedPanel.Queue =>
      if st.queue.isEmpty then st
      else { st with queue_cursor := min (st.queue_cursor + 1) (st.queue.length - 1) }

/-- AppState::switch_panel_left from src/app.rs. -/
def AppStateL.switch_panel_left (st : AppStateL) : AppStateL :=
  { st with focused_panel := FocusedPanel.Library }

/-- AppState::switch_panel_right from src/app.rs. -/
def AppStateL.switch_panel_right (st : AppStateL) : AppStateL :=
  { st with focused_panel := FocusedPanel.Queue }

/-- Command application from src/main.rs lines 153-191 (the per-command
match in run_app), restricted to its AppState effects. The PlayFile arm
builds a Song via Song::new_queued, fills file/duration and installs a
fresh NowPlaying started now; Pause/Resume only flip the paused flag (they
do not touch NowPlaying's paused_at or paused_elapsed fields). -/
def applyCommand (now : ℤ) (st : AppStateL) : PlayerCommandL → AppStateL
  | PlayerCommandL.PlayFile path title artist url dur =>
      let song := { SongL.new_queued title artist url with
                      file_path := some path, duration := some dur }
      { st with
        current := some { song := song, started_at := now,
                          paused_elapsed := 0, paused_at := none },
        paused := false }
  | PlayerCommandL.Skip => { st with current := none }
  | PlayerCommandL.Pause => { st with paused := true }
  | PlayerCommandL.Resume => { st with paused := false }
  | PlayerCommandL.SetVolume level => { st with volume := level }

/-- The two synchronous failure modes of Player::play_file (src/player.rs):
File::open failing and Decoder::new failing. -/
inductive PlayError where
  | ioError
  | decodeError
deriving DecidableEq, Repr

/-- The rodio Sink as observable through Player (src/player.rs): the list of
files appended to it. A fresh sink has nothing appended. -/
structure SinkL where
  appended : List String
deriving DecidableEq, Repr

/-- Sink::try_new: a fresh, empty sink. -/
def freshSink : SinkL := { appended := [] }

/-- Player from src/player.rs (the fields play_file mutates: sink, duration,
analyzer presence). -/
structure PlayerL where
  sink : SinkL
  duration : Option ℚ
  hasAnalyzer : Bool
deriving DecidableEq, Repr

/-- Player::play_file from src/player.rs lines 45-65. `fs path` models the
combined outcome of File::open and Decoder::new on that path (some error or
success). new_sink (stop old sink, allocate a fresh one) runs before the
file is opened, so the old pipeline is torn down even when opening fails;
on failure the mutated receiver is returned together with the error, as the
Rust &mut self keeps its mutations. -/
def play_file (fs : String → Option PlayError) (p : PlayerL) (path : String)
    (dur : Option ℚ) : PlayerL × Option PlayError :=
  let p1 : PlayerL := { p with sink := freshSink }
  match fs path with
  | some e => (p1, some e)
  | none =>
      ({ p1 with sink := { appended := [path] }, hasAnalyzer := true,
                 duration := dur }, none)

/-- Result of one auto-advance evaluation (src/main.rs lines 194-224):
the new app state, the mutated player, the song whose playback was started
(if any), and the play_file error propagated by the `?` operator (if any). -/
structure AdvanceResult where
  state : AppStateL
  player : PlayerL
  played : Option SongL
  err : Option PlayError
deriving DecidableEq, Repr

/-- The auto-advance block of run_app, src/main.rs lines 194-224:
if a NowPlaying exists and the player sink is empty, take the first Ready
queue entry via next_ready_song; if it has a file, play it and install a
fresh NowPlaying; if it has no file, log and drop it (it was already
removed from the queue); if no Ready entry exists, clear NowPlaying. -/
def autoAdvance (fs : String → Option PlayError) (playerEmpty : Bool)
    (now : ℤ) (st : AppStateL) (player : PlayerL) : AdvanceResult :=
  if st.current.isSome && playerEmpty then
    match st.next_ready_song with
    | (some song, st1) =>
        match song.file_path with
        | some path =>
            match (play_file fs player path song.duration).2 with
            | none =>
                { state := { st1 with
                    current := some { song := song, started_at := now,
                                      paused_elapsed := 0, paused_at := none },
                    paused := false },
                  player := (play_file fs player path song.duration).1,
                  played := some song, err := none }
            | some e =>
                { state := st1,
                  player := (play_file fs player path song.duration).1,
                  played := none, err := some e }
        | none => { state := st1, player := player, played := none, err := none }
    | (none, st1) =>
        { state := { st1 with current := none }, player := player,
          played := none, err := none }
  else { state := st, player := player, played := none, err := none }

/-- The pause/resume fallback of the space-key handler (src/main.rs lines
452-461): if no song was played and a NowPlaying exists, toggle paused. -/
def pauseToggleFallback (st : AppStateL) : AppStateL :=
  if st.current.isSome then { st with paused := !st.paused } else st

/-- The space-key handler, FocusedPanel::Queue branch plus fallback
(src/main.rs lines 399-462): if the cursor points at a Ready queue entry,
remove it and re-clamp; if it has a file, attempt playback, installing a
NowPlaying only on success; any path on which nothing was played falls
through to the pause/resume toggle. -/
def spacePlayQueue (fs : String → Option PlayError) (now : ℤ)
    (st : AppStateL) (player : PlayerL) : AppStateL × PlayerL :=
  match st.queue[st.queue_cursor]? with
  | some song =>
      if song.status = SongStatus.Ready then
        match song.file_path with
        | some path =>
            match (play_file fs player path song.duration).2 with
            | none =>
                ({ AppStateL.clamp_cursors
                      { st with queue := st.queue.eraseIdx st.queue_cursor } with
                    current := some { song := song, started_at := now,
                                      paused_elapsed := 0, paused_at := none },
                    paused := false }, (play_file fs player path song.duration).1)
            | some _ =>
                (pauseToggleFallback (AppStateL.clamp_cursors
                    { st with queue := st.queue.eraseIdx st.queue_cursor }),
                  (play_file fs player path song.duration).1)
        | none =>
            (pauseToggleFallback (AppStateL.clamp_cursors
                { st with queue := st.queue.eraseIdx st.queue_cursor }), player)
      else (pauseToggleFallback st, player)
  | none => (pauseToggleFallback st, player)

/-- The space-key handler, FocusedPanel::Library branch plus fallback
(src/main.rs lines 403-425): plays the entry under the library cursor
without removing it from the library. -/
def spacePlayLibrary (fs : String → Option PlayError) (now : ℤ)
    (st : AppStateL) (player : PlayerL) : AppStateL × PlayerL :=
  match st.library[st.library_cursor]? with
  | some song =>
      if song.status = SongStatus.Ready then
        match song.file_path with
        | some path =>
            match (play_file fs player path song.duration).2 with
            | none =>
                ({ st with
                    current := some { song := song, started_at := now,
                                      paused_elapsed := 0, paused_at := none },
                    paused := false }, (play_file fs player path song.duration).1)
            | some _ =>
                (pauseToggleFallback st, (play_file fs player path song.duration).1)
        | none => (pauseToggleFallback st, player)
      else (pauseToggleFallback st, player)
  | none => (pauseToggleFallback st, player)

/-- The space-key handler, dispatching on the focused panel. -/
def spaceKey (fs : String → Option PlayError) (now : ℤ)
    (st : AppStateL) (player : PlayerL) : AppStateL × PlayerL :=
  match st.focused_panel with
  | FocusedPanel.Library => spacePlayLibrary fs now st player
  | FocusedPanel.Queue => spacePlayQueue fs now st player

/-- The level computed by the agent set_volume tool (src/agent.rs lines
477-481): input["level"].as_u64().unwrap_or(70) as u8. The input is the
optional u64 from the JSON; the u8 cast truncates mod 256. No clamping to
0-100 happens on this path. -/
def set_volume_command_level (input : Option ℕ) : ℕ := (input.getD 70) % 256

/-- Player::set_volume from src/player.rs lines 86-88: the gain applied to
the sink is volume / 100 (as f32; exact here since the claim is about the
scale, not rounding). -/
def sink_gain (level : ℕ) : ℚ := (level : ℚ) / 100

/-- The + key volume handler from src/main.rs line 371. -/
def volume_up (v : ℕ) : ℕ := min (v + 5) 100

/-- The - key volume handler from src/main.rs line 378 (saturating_sub). -/
def volume_down (v : ℕ) : ℕ := v - 5

/-- LibraryEntry from src/library.rs. -/
structure LibraryEntryL where
  video_id : String
  title : String
  artist : String
  url : String
  duration_secs : ℚ
  file_path : String
  downloaded_at : String
deriving DecidableEq, Repr

/-- Library::add from src/library.rs lines 53-62: replace the first entry
with the same video_id in place, else push at the end. (The subsequent
save() serializes this same list; lookups read it back unchanged.) -/
def addEntry : List LibraryEntryL → LibraryEntryL → List LibraryEntryL
  | [], e => [e]
  | x :: xs, e =>
      if x.video_id = e.video_id then e :: xs else x :: addEntry xs e

/-- Library::find_by_url from src/library.rs lines 64-66. -/
def find_by_url (entries : List LibraryEntryL) (url : String) :
    Option LibraryEntryL :=
  entries.find? (fun e => decide (e.url = url))

/-- AudioFeatures from src/audio_analysis.rs, over rationals. -/
structure AudioFeaturesL where
  rms : ℚ
  bass : ℚ
  mid : ℚ
  treble : ℚ
  is_beat : Bool
deriving DecidableEq, Repr

/-- AudioFeatures::default(): all numeric fields 0.0, beat flag false. -/
def zeroFeatures : AudioFeaturesL :=
  { rms := 0, bass := 0, mid := 0, treble := 0, is_beat := false }

/-- FFT_SIZE from src/audio_analysis.rs line 131. -/
def FFT_SIZE : ℕ := 2048

/-- The numeric output of the RMS/Hann/FFT/band-energy pipeline of
AudioAnalyzer::analyze (src/audio_analysis.rs lines 167-217). That pipeline
is f32 floating-point arithmetic with sqrt, so it is kept as an explicit
function parameter of the analyzer model; the properties proved below hold
for every such kernel, so nothing depends on the fudged numerics. -/
structure SpectralOut where
  rms : ℚ
  bass : ℚ
  mid : ℚ
  treble : ℚ

/-- Beat-detection state of AudioAnalyzer (src/audio_analysis.rs lines
137-139): the rolling bass history and the last-beat instant (ms). -/
structure AnalyzerStateL where
  bass_history : List ℚ
  last_beat : ℤ
deriving DecidableEq, Repr

/-- AudioAnalyzer::new at wall-clock time now: empty history, last_beat one
second in the past (src/audio_analysis.rs line 149). -/
def AnalyzerStateL.init (now : ℤ) : AnalyzerStateL :=
  { bass_history := [], last_beat := now - 1000 }

/-- The history update of analyze (src/audio_analysis.rs lines 220-223):
push_back the current bass, then pop_front once if the length exceeds 20. -/
def pushHistory (bass : ℚ) (hist : List ℚ) : List ℚ :=
  let h := hist ++ [bass]
  if h.length > 20 then h.drop 1 else h

/-- The rolling average of src/audio_analysis.rs line 225. -/
def rollingAvg (l : List ℚ) : ℚ := l.sum / (l.length : ℚ)

/-- The fire condition of the beat detector (src/audio_analysis.rs lines
225-229): current bass exceeds 1.5 times the rolling average (computed
after the history push), exceeds the absolute floor 0.15, and more than
200 ms of wall clock passed since the last fired beat. -/
def beatFires (bass : ℚ) (now : ℤ) (st : AnalyzerStateL) : Bool :=
  decide (rollingAvg (pushHistory bass st.bass_history) * (3 / 2) < bass)
    && decide ((3 / 20 : ℚ) < bass)
    && decide ((200 : ℤ) < now - st.last_beat)

/-- The beat-detection step of analyze (src/audio_analysis.rs lines
219-233): push the current bass into the history, fire per beatFires, and
on fire set the last-beat clock to now. -/
def beatStep (bass : ℚ) (now : ℤ) (st : AnalyzerStateL) : Bool × AnalyzerStateL :=
  (beatFires bass now st,
    { bass_history := pushHistory bass st.bass_history,
      last_beat := if beatFires bass now st then now else st.last_beat })

/-- The most recent FFT_SIZE samples of the buffer (src/audio_analysis.rs
line 164: iterate from the back, take FFT_SIZE, restore order). -/
def recentWindow (buf : List ℚ) : List ℚ := (buf.reverse.take FFT_SIZE).reverse

/-- AudioAnalyzer::analyze from src/audio_analysis.rs lines 153-242, with
the shared buffer contents, the wall clock and the spectral kernel passed
explicitly. Fewer than FFT_SIZE buffered samples short-circuits to
AudioFeatures::default(); otherwise the most recent FFT_SIZE samples feed
the kernel and its bass output drives the beat-detection step. -/
def analyze (kernel : List ℚ → SpectralOut) (buf : List ℚ) (now : ℤ)
    (st : AnalyzerStateL) : AudioFeaturesL × AnalyzerStateL :=
  if buf.length < FFT_SIZE then (zeroFeatures, st)
  else
    ({ rms := (kernel (recentWindow buf)).rms,
       bass := (kernel (recentWindow buf)).bass,
       mid := (kernel (recentWindow buf)).mid,
       treble := (kernel (recentWindow buf)).treble,
       is_beat := (beatStep (kernel (recentWindow buf)).bass now st).1 },
      (beatStep (kernel (recentWindow buf)).bass now st).2)

/-- A sequence of analyze calls on one analyzer: each call supplies the
buffer contents and its wall-clock time; the outputs are the beat flag and
the call time, in call order. -/
def runAnalyzer (kernel : List ℚ → SpectralOut) :
    List (List ℚ × ℤ) → AnalyzerStateL → List (Bool × ℤ)
  | [], _ => []
  | (buf, t) :: rest, st =>
      ((analyze kernel buf t st).1.is_beat, t)
        :: runAnalyzer kernel rest (analyze kernel buf t st).2

/-- The times of the calls on which the beat flag fired. -/
def beatTimes (out : List (Bool × ℤ)) : List ℤ :=
  out.filterMap (fun bt => if bt.1 then some bt.2 else none)

/-- The in-place queue-entry update performed by the background download
task on completion (src/agent.rs lines 348-358 and 440-451): the first
queue entry with the matching url gets the resolved title, artist, file and
duration and becomes Ready; everything else is untouched. -/
def downloadCompleteUpdate (url title artist path : String) (dur : ℚ) :
    List SongL → List SongL
  | [] => []
  | s :: rest =>
      if s.url = url then
        { s with title := title, artist := artist, file_path := some path,
                 duration := some dur, status := SongStatus.Ready } :: rest
      else s :: downloadCompleteUpdate url title artist path dur rest

/-- The Downloading placeholder pushed by search_and_queue / replace_queue
(src/agent.rs lines 328-336 and 419-428): Song::new_queued with status
overwritten to Downloading. -/
def downloadingPlaceholder (title url : String) : SongL :=
  { SongL.new_queued title "" url with status := SongStatus.Downloading }

/-- The Ready song built from a cached library entry (src/agent.rs lines
315-323, 407-415; src/main.rs lines 100-104; src/agent.rs lines 514-520). -/
def cachedReadySong (title artist url path : String) (dur : ℚ) : SongL :=
  { SongL.new_queued title artist url with
      file_path := some path, duration := some dur,
      status := SongStatus.Ready }

/-- The operations of the source that mutate the queue, library, cursors or
now-playing of AppState, each tagged with where it lives. -/
inductive OpL where
  /-- run_app command processing, src/main.rs lines 153-191. -/
  | cmd (now : ℤ) (c : PlayerCommandL)
  /-- run_app auto-advance, src/main.rs lines 194-224. -/
  | autoAdv (fs : String → Option PlayError) (playerEmpty : Bool) (now : ℤ)
  /-- agent search_and_queue / replace_queue pushing a Downloading
  placeholder, src/agent.rs lines 328-336, 419-428. -/
  | queuePushDownloading (title url : String)
  /-- agent pushing a cached Ready song to the queue, src/agent.rs lines
  315-323, 407-415. -/
  | queuePushCachedReady (title artist url path : String) (dur : ℚ)
  /-- replace_queue clearing the queue then re-clamping, src/agent.rs lines
  379-383. -/
  | clearQueue
  /-- background download completion updating the matching queue entry in
  place, src/agent.rs lines 348-358, 440-451. -/
  | downloadComplete (url title artist path : String) (dur : ℚ)
  /-- persist_to_library adding a Ready song to the library panel unless
  the url is already present, src/agent.rs lines 512-521. -/
  | libraryPanelAdd (title artist url path : String) (dur : ℚ)
  /-- startup restore of a cached library entry, src/main.rs lines 97-105. -/
  | restoreLibrary (title artist url path : String) (dur : ℚ)
  /-- arrow keys and panel switches, src/main.rs lines 383-397. -/
  | moveUp
  | moveDown
  | panelLeft
  | panelRight
  /-- the n key (skip), src/main.rs lines 343-347. -/
  | keySkip
  /-- the p key pause toggle, src/main.rs lines 331-341. -/
  | keyPauseToggle
  /-- the + / - keys, src/main.rs lines 369-381. -/
  | volUp
  | volDown
  /-- the space key, src/main.rs lines 399-462. -/
  | space (fs : String → Option PlayError) (now : ℤ)

/-- A player whose concrete value is irrelevant to the AppState effects of
an operation (the state components of autoAdvance and spaceKey do not
depend on the player). -/
def dummyPlayer : PlayerL := { sink := freshSink, duration := none, hasAnalyzer := false }

/-- The AppState effect of one operation. -/
def applyOp (st : AppStateL) : OpL → AppStateL
  | OpL.cmd now c => applyCommand now st c
  | OpL.autoAdv fs pe now => (autoAdvance fs pe now st dummyPlayer).state
  | OpL.queuePushDownloading title url =>
      { st with queue := st.queue ++ [downloadingPlaceholder title url] }
  | OpL.queuePushCachedReady title artist url path dur =>
      { st with queue := st.queue ++ [cachedReadySong title artist url path dur] }
  | OpL.clearQueue => AppStateL.clamp_cursors { st with queue := [] }
  | OpL.downloadComplete url title artist path dur =>
      { st with queue := downloadCompleteUpdate url title artist path dur st.queue }
  | OpL.libraryPanelAdd title artist url path dur =>
      if st.library.any (fun song => decide (song.url = url)) then st
      else { st with library := st.library ++ [cachedReadySong title artist url path dur] }
  | OpL.restoreLibrary title artist url path dur =>
      { st with library := st.library ++ [cachedReadySong title artist url path dur] }
  | OpL.moveUp => st.move_cursor_up
  | OpL.moveDown => st.move_cursor_down
  | OpL.panelLeft => st.switch_panel_left
  | OpL.panelRight => st.switch_panel_right
  | OpL.keySkip => { st with current := none }
  | OpL.keyPauseToggle => { st with paused := !st.paused }
  | OpL.volUp => { st with volume := volume_up st.volume }
  | OpL.volDown => { st with volume := volume_down st.volume }
  | OpL.space fs now => (spaceKey fs now st dummyPlayer).1

/-- Running a sequence of operations. -/
def runOps (ops : List OpL) (st : AppStateL) : AppStateL :=
  ops.foldl applyOp st

/-- One cursor is in bounds of its collection, or pinned at 0 when the
collection is empty. -/
def cursorOk (cursor len : ℕ) : Prop := cursor < len ∨ (len = 0 ∧ cursor = 0)

/-- The cursor invariant of the claim: both cursors in bounds (or 0 on an
empty collection). -/
def cursorInv (st : AppStateL) : Prop :=
  cursorOk st.library_cursor st.library.length ∧
    cursorOk st.queue_cursor st.queue.length

/-- Every song in the queue or library has one of the three statuses the
source ever assigns. -/
def statusInv (st : AppStateL) : Prop :=
  ∀ s ∈ st.queue ++ st.library,
    s.status = SongStatus.Queued ∨ s.status = SongStatus.Downloading ∨
      s.status = SongStatus.Ready

/-! Concrete values used to instantiate theorems. -/

/-- A queue entry that is Ready but has no resolved local file. -/
def readyNoFileSong : SongL :=
  { title := "stuck", artist := "", url := "u1", file_path := none,
    status := SongStatus.Ready, duration := none }

/-- Some active NowPlaying. -/
def someNowPlaying : NowPlayingL :=
  { song := SongL.new_queued "t0" "a0" "u0", started_at := 0,
    paused_elapsed := 0, paused_at := none }

/-- A state with an active NowPlaying and a single Ready-but-unresolved
queue entry. -/
def advState : AppStateL :=
  { AppStateL.init with queue := [readyNoFileSong], current := some someNowPlaying }

/-- A filesystem on which every open/decode succeeds. -/
def alwaysOkFs : String → Option PlayError := fun _ => none

/-- A filesystem on which every open fails. -/
def alwaysIoErrFs : String → Option PlayError := fun _ => some PlayError.ioError

/-- A player with an active pipeline (a file appended to its sink). -/
def oldPipelinePlayer : PlayerL :=
  { sink := { appended := ["old.mp3"] }, duration := some 100, hasAnalyzer := true }

/-- A Ready queue entry whose file will fail to open. -/
def readySongBadFile : SongL :=
  { title := "bad", artist := "", url := "ub", file_path := some "bad.mp3",
    status := SongStatus.Ready, duration := some 10 }

/-- A state focused on the queue with the bad-file song under the cursor. -/
def spaceState : AppStateL :=
  { AppStateL.init with
    queue := [readySongBadFile],
    focused_panel := FocusedPanel.Queue }

/-- A spectral kernel whose bass output is 1 on an all-ones window and 0
otherwise (any kernel works; the analyzer theorems hold for all of them). -/
def demoKernel : List ℚ → SpectralOut :=
  fun samples =>
    if samples.headI = 1 then { rms := 1, bass := 1, mid := 1, treble := 1 }
    else { rms := 0, bass := 0, mid := 0, treble := 0 }

/-- Two analyze calls 300 ms apart: a silent full buffer, then a loud one. -/
def demoCalls : List (List ℚ × ℤ) :=
  [(List.replicate 2048 0, 0), (List.replicate 2048 1, 300)]

/-- An analyzer state with one quiet bass sample in the history. -/
def demoAnalyzerState : AnalyzerStateL := { bass_history := [0], last_beat := 0 }

/-- A library entry; shares its url with newUrlEntry but not its video_id. -/
def oldUrlEntry : LibraryEntryL :=
  { video_id := "vidA", title := "old title", artist := "old artist",
    url := "shared", duration_secs := 100, file_path := "vidA.mp3",
    downloaded_at := "d1" }

/-- A later record for the same url under a different video_id. -/
def newUrlEntry : LibraryEntryL :=
  { video_id := "vidB", title := "new title", artist := "new artist",
    url := "shared", duration_secs := 200, file_path := "vidB.mp3",
    downloaded_at := "d2" }

/-! Theorems. -/

/-- The beat times of one analyze output step prepend the call time when
the flag fired. -/
theorem beatTimes_cons (b : Bool) (t : ℤ) (out : List (Bool × ℤ)) :
    beatTimes ((b, t) :: out)
      = if b then t :: beatTimes out else beatTimes out := by
  cases b <;> simp [beatTimes, List.filterMap_cons]

/-- A fired analyze call happened more than 200 ms after the stored
last-beat instant, and stores the call time as the new last beat. -/
theorem analyze_fire (kernel : List ℚ → SpectralOut) (buf : List ℚ)
    (now : ℤ) (st : AnalyzerStateL)
    (h : (analyze kernel buf now st).1.is_beat = true) :
    (200 : ℤ) < now - st.last_beat
  ∧ (analyze kernel buf now st).2.last_beat = now := by
  rw [analyze] at h ⊢
  split at h
  · cases h
  · rename_i hlen
    rw [if_neg hlen]
    have hf : beatFires (kernel (recentWindow buf)).bass now st = true := h
    have h3 : (200 : ℤ) < now - st.last_beat := by
      have := hf
      rw [beatFires] at this
      simp only [Bool.and_eq_true, decide_eq_true_eq] at this
      exact this.2
    refine ⟨h3, ?_⟩
    show (if beatFires (kernel (recentWindow buf)).bass now st
      then now else st.last_beat) = now
    rw [if_pos hf]

/-- An analyze call that did not fire keeps the last-beat instant. -/
theorem analyze_nofire (kernel : List ℚ → SpectralOut) (buf : List ℚ)
    (now : ℤ) (st : AnalyzerStateL)
    (h : (analyze kernel buf now st).1.is_beat = false) :
    (analyze kernel buf now st).2.last_beat = st.last_beat := by
  rw [analyze] at h ⊢
  split at h
  · rename_i hlen
    rw [if_pos hlen]
  · rename_i hlen
    rw [if_neg hlen]
    have hf : beatFires (kernel (recentWindow buf)).bass now st = false := h
    show (if beatFires (kernel (recentWindow buf)).bass now st
      then now else st.last_beat) = st.last_beat
    rw [if_neg (by rw [hf]; exact Bool.false_ne_true)]

/-- Along any analyze trace, consecutive and non-consecutive fired beats
alike are separated by more than 200 ms, and every fired beat happens more
than 200 ms after the initial last-beat instant. -/
theorem beatTimes_gap (kernel : List ℚ → SpectralOut)
    (calls : List (List ℚ × ℤ)) (st : AnalyzerStateL) :
    List.Pairwise (fun a b : ℤ => a + 200 < b)
      (beatTimes (runAnalyzer kernel calls st))
  ∧ ∀ u ∈ beatTimes (runAnalyzer kernel calls st), st.last_beat + 200 < u := by
  induction calls generalizing st with
  | nil =>
      refine ⟨List.Pairwise.nil, fun u hu => ?_⟩
      cases hu
  | cons c rest ih =>
      rcases c with ⟨buf, t⟩
      rw [runAnalyzer, beatTimes_cons]
      rcases hb : (analyze kernel buf t st).1.is_beat with _ | _
      · rw [if_neg Bool.false_ne_true]
        obtain ⟨ihp, ihb⟩ := ih (analyze kernel buf t st).2
        have hlb := analyze_nofire kernel buf t st hb
        exact ⟨ihp, fun u hu => by have h2 := ihb u hu; rw [hlb] at h2; exact h2⟩
      · rw [if_pos rfl]
        obtain ⟨hgap, hset⟩ := analyze_fire kernel buf t st hb
        obtain ⟨ihp, ihb⟩ := ih (analyze kernel buf t st).2
        constructor
        · refine List.Pairwise.cons (fun u hu => ?_) ihp
          have h2 := ihb u hu
          rw [hset] at h2
          exact h2
        · intro u hu
          rcases List.mem_cons.mp hu with rfl | hu2
          · omega
          · have h2 := ihb u hu2
            rw [hset] at h2
            omega

/-- C1. The spec claims elapsed() equals wall-clock time since start minus
accumulated paused intervals, so after Pause at t=10s and Resume at t=15s
the elapsed value right after Resume should equal its value at the moment
of Pause (10s). In the source the Pause and Resume command handlers
(src/main.rs lines 175-184) only flip the paused flag and never set
NowPlaying.paused_at or accumulate NowPlaying.paused_elapsed, so elapsed()
keeps counting through the pause: it reads 10000 ms at the Pause and
15000 ms right after the Resume, counting the whole 5 s paused interval. -/
theorem c1_pause_resume_counts_paused_interval :
    ((applyCommand 10000
        (applyCommand 0 AppStateL.init
          (PlayerCommandL.PlayFile "f.mp3" "T" "A" "u" 180))
        PlayerCommandL.Pause).current.map (fun np => np.elapsed 10000)
      = some 10000)
  ∧ ((applyCommand 15000
        (applyCommand 10000
          (applyCommand 0 AppStateL.init
            (PlayerCommandL.PlayFile "f.mp3" "T" "A" "u" 180))
          PlayerCommandL.Pause)
        PlayerCommandL.Resume).current.map (fun np => np.elapsed 15000)
      = some 15000)
  ∧ (15000 : ℤ) ≠ 10000 := by
  refine ⟨rfl, rfl, by decide⟩

/-- C6 counterexample. The claim says a SetVolume level outside 0-100 is
clamped into range, so the sink gain is always level/100 for some level in
0-100 (hence at most 1). The agent tool path (src/agent.rs lines 477-481)
does not clamp: a JSON level of 150 reaches Player::set_volume unchanged
and the applied gain is 150/100 = 3/2 > 1. -/
theorem c6_unclamped_level_exceeds_unit_gain :
    set_volume_command_level (some 150) = 150
  ∧ (applyCommand 0 AppStateL.init
      (PlayerCommandL.SetVolume (set_volume_command_level (some 150)))).volume = 150
  ∧ sink_gain (set_volume_command_level (some 150)) = 3 / 2
  ∧ ¬ sink_gain (set_volume_command_level (some 150)) ≤ 1 := by
  refine ⟨rfl, rfl, by norm_num [sink_gain, set_volume_command_level],
    by norm_num [sink_gain, set_volume_command_level]⟩

/-- C6 amended. The agent SetVolume path truncates the JSON value to u8
(mod 256, default 70) without clamping to 0-100, and the sink gain is
level/100 for that possibly-above-100 level; only the keyboard + and -
volume paths clamp, keeping the volume within 0-100. -/
theorem c6_volume_truncated_not_clamped :
    (∀ input : Option ℕ,
        set_volume_command_level input < 256
      ∧ sink_gain (set_volume_command_level input)
          = (set_volume_command_level input : ℚ) / 100)
  ∧ (∀ v : ℕ, volume_up v ≤ 100 ∧ (v ≤ 100 → volume_down v ≤ 100)) := by
  constructor
  · intro input
    exact ⟨Nat.mod_lt _ (by norm_num), rfl⟩
  · intro v
    refine ⟨min_le_right _ _, fun h => ?_⟩
    exact le_trans (Nat.sub_le v 5) h

/-- C6 witness: the amended theorem applied at level 150 and volume 100. -/
theorem c6_volume_truncated_not_clamped_witness :
    (set_volume_command_level (some 150) < 256
      ∧ sink_gain (set_volume_command_level (some 150))
          = (set_volume_command_level (some 150) : ℚ) / 100)
  ∧ (volume_up 100 ≤ 100 ∧ volume_down 100 ≤ 100) :=
  ⟨c6_volume_truncated_not_clamped.1 (some 150),
    ⟨(c6_volume_truncated_not_clamped.2 100).1,
      (c6_volume_truncated_not_clamped.2 100).2 (by decide)⟩⟩

/-- C7 counterexample. Library::add upserts keyed by video_id while
find_by_url searches by url and returns the first match. Persisting a
record whose url already belongs to an entry with a different video_id
appends the new record after the old one, and the lookup by that url
returns the old record, whose title differs. -/
theorem c7_url_lookup_returns_stale_entry :
    addEntry [oldUrlEntry] newUrlEntry = [oldUrlEntry, newUrlEntry]
  ∧ find_by_url (addEntry [oldUrlEntry] newUrlEntry) newUrlEntry.url
      = some oldUrlEntry
  ∧ oldUrlEntry.title ≠ newUrlEntry.title := by
  refine ⟨by decide, by decide, by decide⟩

/-- C7 amended. Provided no existing entry pairs the record's url with a
different video_id (the url-to-video_id association is consistent, as it
is when each url is persisted under one video_id), persisting a record and
looking it up by its url returns that very record. -/
theorem c7_roundtrip_of_consistent_library (entries : List LibraryEntryL)
    (e : LibraryEntryL)
    (h : ∀ x ∈ entries, x.url = e.url → x.video_id = e.video_id) :
    find_by_url (addEntry entries e) e.url = some e := by
  induction entries with
  | nil => simp [addEntry, find_by_url]
  | cons x xs ih =>
      by_cases hvid : x.video_id = e.video_id
      · simp [addEntry, hvid, find_by_url]
      · have hurl : ¬ x.url = e.url := fun hu => hvid (h x (by simp) hu)
        simp only [addEntry, if_neg hvid, find_by_url, List.find?_cons,
          decide_eq_true_eq]
        rw [decide_eq_false hurl]
        exact ih (fun y hy => h y (by simp [hy]))

/-- C7 witness: the amended round trip at a concrete consistent library. -/
theorem c7_roundtrip_witness :
    find_by_url (addEntry [oldUrlEntry] oldUrlEntry) oldUrlEntry.url
      = some oldUrlEntry :=
  c7_roundtrip_of_consistent_library [oldUrlEntry] oldUrlEntry
    (by intro x hx _; simp at hx; simp [hx])

/-- C2 counterexample. The claim says auto-advance leaves a Ready entry
with no resolved local file in the queue, to be rechecked next tick. In
the source, next_ready_song (src/app.rs lines 195-203) removes the first
Ready entry from the queue before the caller checks its file
(src/main.rs lines 203-218); when the file is absent the removed song is
simply dropped, so the entry is gone from the queue (though indeed not
played). -/
theorem c2_unresolved_ready_entry_is_dropped :
    readyNoFileSong.status = SongStatus.Ready
  ∧ readyNoFileSong.file_path = none
  ∧ advState.queue = [readyNoFileSong]
  ∧ advState.current.isSome = true
  ∧ (autoAdvance alwaysOkFs true 5 advState dummyPlayer).state.queue = []
  ∧ (autoAdvance alwaysOkFs true 5 advState dummyPlayer).played = none := by
  refine ⟨rfl, rfl, rfl, rfl, by decide, by decide⟩

/-- C2 amended. When auto-advance runs with a NowPlaying present and the
player empty, and the first Ready queue entry has no resolved local file,
auto-advance removes that entry from the queue and discards it without
starting playback; NowPlaying, the pause flag and the player are left
unchanged, and no error is raised. -/
theorem c2_unresolved_ready_entry_removed_not_played
    (fs : String → Option PlayError) (now : ℤ) (st : AppStateL)
    (player : PlayerL) (pos : ℕ) (song : SongL)
    (hcur : st.current.isSome = true)
    (hpos : position isReady st.queue = some pos)
    (hget : st.queue[pos]? = some song)
    (hnofile : song.file_path = none) :
    (autoAdvance fs true now st player).state =
      AppStateL.clamp_cursors { st with queue := st.queue.eraseIdx pos }
  ∧ (autoAdvance fs true now st player).played = none
  ∧ (autoAdvance fs true now st player).err = none
  ∧ (autoAdvance fs true now st player).player = player := by
  simp only [autoAdvance, AppStateL.next_ready_song, hpos, hget, hcur,
    hnofile, Bool.and_true, if_true]
  exact ⟨trivial, trivial, trivial, trivial⟩

/-- C2 witness: the amended theorem at the concrete one-entry state. -/
theorem c2_unresolved_ready_entry_removed_witness :
    (autoAdvance alwaysOkFs true 5 advState dummyPlayer).state =
      AppStateL.clamp_cursors { advState with queue := advState.queue.eraseIdx 0 }
  ∧ (autoAdvance alwaysOkFs true 5 advState dummyPlayer).played = none
  ∧ (autoAdvance alwaysOkFs true 5 advState dummyPlayer).err = none
  ∧ (autoAdvance alwaysOkFs true 5 advState dummyPlayer).player = dummyPlayer :=
  c2_unresolved_ready_entry_removed_not_played alwaysOkFs 5 advState
    dummyPlayer 0 readyNoFileSong (by decide) (by decide) (by decide) (by decide)

/-- C5 counterexample. The claim says a failed play() leaves all state
unchanged, the previously active pipeline included. Player::play_file
(src/player.rs lines 45-65) calls new_sink first — stopping the old sink
and replacing it with a fresh empty one — before File::open runs, so when
the open fails the previous pipeline is already gone; and the space-key
queue path (src/main.rs lines 426-449) removes the selected entry from the
queue before attempting playback and does not restore it on failure. The
error is surfaced synchronously, but neither the player nor the queue is
as before the call. -/
theorem c5_failed_play_mutates_player_and_queue :
    (play_file alwaysIoErrFs oldPipelinePlayer "bad.mp3" (some 10)).2
      = some PlayError.ioError
  ∧ (play_file alwaysIoErrFs oldPipelinePlayer "bad.mp3" (some 10)).1
      ≠ oldPipelinePlayer
  ∧ (play_file alwaysIoErrFs oldPipelinePlayer "bad.mp3" (some 10)).1.sink
      = freshSink
  ∧ (spacePlayQueue alwaysIoErrFs 0 spaceState oldPipelinePlayer).1.queue
      ≠ spaceState.queue := by
  refine ⟨rfl, by decide, rfl, by decide⟩

/-- C5 amended. A failing play() surfaces its error synchronously and no
NowPlaying is created, but state is not fully preserved: play() tears down
the previous pipeline (the sink is replaced by a fresh empty one) before
the open attempt, and the space-key queue caller has already removed the
selected entry, which is not restored on failure. -/
theorem c5_failure_surfaced_but_pipeline_torn_down :
    (∀ (fs : String → Option PlayError) (p : PlayerL) (path : String)
        (dur : Option ℚ) (e : PlayError), fs path = some e →
        play_file fs p path dur = ({ p with sink := freshSink }, some e))
  ∧ (∀ (fs : String → Option PlayError) (now : ℤ) (st : AppStateL)
        (player : PlayerL) (song : SongL) (path : String) (e : PlayError),
        st.queue[st.queue_cursor]? = some song →
        song.status = SongStatus.Ready →
        song.file_path = some path →
        fs path = some e →
        (spacePlayQueue fs now st player).1.current = st.current
      ∧ (spacePlayQueue fs now st player).1.queue
          = st.queue.eraseIdx st.queue_cursor
      ∧ (spacePlayQueue fs now st player).2
          = { player with sink := freshSink }) := by
  constructor
  · intro fs p path dur e h
    simp [play_file, h]
  · intro fs now st player song path e hget hready hfile herr
    simp only [spacePlayQueue, hget, hready, hfile, herr, if_pos,
      play_file, pauseToggleFallback, AppStateL.clamp_cursors]
    refine ⟨?_, ?_, trivial⟩
    · split <;> rfl
    · split <;> rfl

/-- C5 witness: the amended theorem at a concrete failing open, with an
active pipeline and a Ready queue entry under the cursor. -/
theorem c5_failure_surfaced_witness :
    play_file alwaysIoErrFs oldPipelinePlayer "bad.mp3" (some 10)
      = ({ oldPipelinePlayer with sink := freshSink }, some PlayError.ioError)
  ∧ ((spacePlayQueue alwaysIoErrFs 0 spaceState oldPipelinePlayer).1.current
        = spaceState.current
    ∧ (spacePlayQueue alwaysIoErrFs 0 spaceState oldPipelinePlayer).1.queue
        = spaceState.queue.eraseIdx spaceState.queue_cursor
    ∧ (spacePlayQueue alwaysIoErrFs 0 spaceState oldPipelinePlayer).2
        = { oldPipelinePlayer with sink := freshSink }) :=
  ⟨c5_failure_surfaced_but_pipeline_torn_down.1 alwaysIoErrFs
      oldPipelinePlayer "bad.mp3" (some 10) PlayError.ioError rfl,
    c5_failure_surfaced_but_pipeline_torn_down.2 alwaysIoErrFs 0 spaceState
      oldPipelinePlayer readySongBadFile "bad.mp3" PlayError.ioError
      (by decide) (by decide) (by decide) rfl⟩

/-! Cursor-invariant lemmas (C3) and status-invariant lemmas (C10). -/

/-- The value clamp_cursors computes for one cursor satisfies cursorOk. -/
theorem cursorOk_clampList {α : Type} (c : ℕ) (l : List α) :
    cursorOk (if l.isEmpty then 0 else min c (l.length - 1)) l.length := by
  cases l with
  | nil => exact Or.inr ⟨rfl, rfl⟩
  | cons a t =>
      refine Or.inl ?_
      show min c (t.length + 1 - 1) < t.length + 1
      omega

/-- clamp_cursors establishes the cursor invariant from any state. -/
theorem cursorInv_clamp (st : AppStateL) : cursorInv st.clamp_cursors :=
  ⟨cursorOk_clampList st.library_cursor st.library,
    cursorOk_clampList st.queue_cursor st.queue⟩

/-- Appending to a collection preserves cursorOk. -/
theorem cursorOk_append {α : Type} (c : ℕ) (l : List α) (x : α)
    (h : cursorOk c l.length) : cursorOk c (l ++ [x]).length := by
  rcases h with h | ⟨h0, hc⟩
  · exact Or.inl (by simpa using Nat.lt_succ_of_lt h)
  · exact Or.inl (by simp [h0, hc, List.length_eq_zero.mp h0])

/-- The pause/resume fallback does not touch cursors or collections. -/
theorem cursorInv_fallback (st : AppStateL) (h : cursorInv st) :
    cursorInv (pauseToggleFallback st) := by
  rw [pauseToggleFallback]
  split
  · exact h
  · exact h

/-- The in-place download-completion update preserves list length. -/
theorem length_downloadCompleteUpdate (url title artist path : String)
    (dur : ℚ) (l : List SongL) :
    (downloadCompleteUpdate url title artist path dur l).length = l.length := by
  induction l with
  | nil => rfl
  | cons s rest ih =>
      rw [downloadCompleteUpdate]
      split
      · rfl
      · simpa using ih

/-- next_ready_song leaves a state satisfying the cursor invariant,
because its removal path ends in the dedicated re-clamp step. -/
theorem cursorInv_next_ready_song (st : AppStateL) (h : cursorInv st) :
    cursorInv st.next_ready_song.2 := by
  rw [AppStateL.next_ready_song]
  rcases hp : position isReady st.queue with _ | pos
  · exact h
  · exact cursorInv_clamp _

/-- Every modelled operation preserves the cursor invariant. -/
theorem cursorInv_applyOp (st : AppStateL) (op : OpL) (h : cursorInv st) :
    cursorInv (applyOp st op) := by
  cases op with
  | cmd now c => cases c <;> exact h
  | autoAdv fs pe now =>
      show cursorInv (autoAdvance fs pe now st dummyPlayer).state
      rw [autoAdvance]
      split
      · split
        · rename_i song st1 heq
          have h1 : cursorInv st1 := by
            have h2 := cursorInv_next_ready_song st h
            rw [heq] at h2
            exact h2
          split
          · split
            · exact h1
            · exact h1
          · exact h1
        · rename_i st1 heq
          have h1 : cursorInv st1 := by
            have h2 := cursorInv_next_ready_song st h
            rw [heq] at h2
            exact h2
          exact h1
      · exact h
  | queuePushDownloading title url =>
      exact ⟨h.1, cursorOk_append _ _ _ h.2⟩
  | queuePushCachedReady title artist url path dur =>
      exact ⟨h.1, cursorOk_append _ _ _ h.2⟩
  | clearQueue => exact cursorInv_clamp _
  | downloadComplete url title artist path dur =>
      refine ⟨h.1, ?_⟩
      show cursorOk st.queue_cursor
        (downloadCompleteUpdate url title artist path dur st.queue).length
      rw [length_downloadCompleteUpdate]
      exact h.2
  | libraryPanelAdd title artist url path dur =>
      show cursorInv (if st.library.any (fun song => decide (song.url = url))
        then st
        else { st with library := st.library ++ [cachedReadySong title artist url path dur] })
      split
      · exact h
      · exact ⟨cursorOk_append _ _ _ h.1, h.2⟩
  | restoreLibrary title artist url path dur =>
      exact ⟨cursorOk_append _ _ _ h.1, h.2⟩
  | moveUp =>
      show cursorInv st.move_cursor_up
      rw [AppStateL.move_cursor_up]
      rcases h with ⟨hL, hQ⟩
      split
      · split
        · refine ⟨?_, hQ⟩
          rcases hL with h1 | ⟨h0, h2⟩
          · exact Or.inl (by show st.library_cursor - 1 < st.library.length; omega)
          · exact Or.inr ⟨h0, by show st.library_cursor - 1 = 0; omega⟩
        · exact ⟨hL, hQ⟩
      · split
        · refine ⟨hL, ?_⟩
          rcases hQ with h1 | ⟨h0, h2⟩
          · exact Or.inl (by show st.queue_cursor - 1 < st.queue.length; omega)
          · exact Or.inr ⟨h0, by show st.queue_cursor - 1 = 0; omega⟩
        · exact ⟨hL, hQ⟩
  | moveDown =>
      show cursorInv st.move_cursor_down
      rw [AppStateL.move_cursor_down]
      rcases h with ⟨hL, hQ⟩
      split
      · split
        · exact ⟨hL, hQ⟩
        · rename_i hc
          have hl : st.library.length ≠ 0 := by
            simpa [List.isEmpty_iff, List.length_eq_zero] using hc
          refine ⟨Or.inl ?_, hQ⟩
          show min (st.library_cursor + 1) (st.library.length - 1) < st.library.length
          omega
      · split
        · exact ⟨hL, hQ⟩
        · rename_i hc
          have hl : st.queue.length ≠ 0 := by
            simpa [List.isEmpty_iff, List.length_eq_zero] using hc
          refine ⟨hL, Or.inl ?_⟩
          show min (st.queue_cursor + 1) (st.queue.length - 1) < st.queue.length
          omega
  | panelLeft => exact h
  | panelRight => exact h
  | keySkip => exact h
  | keyPauseToggle => exact h
  | volUp => exact h
  | volDown => exact h
  | space fs now =>
      show cursorInv (spaceKey fs now st dummyPlayer).1
      rw [spaceKey]
      split
      · rw [spacePlayLibrary]
        split
        · split
          · split
            · split
              · exact h
              · exact cursorInv_fallback _ h
            · exact cursorInv_fallback _ h
          · exact cursorInv_fallback _ h
        · exact cursorInv_fallback _ h
      · rw [spacePlayQueue]
        split
        · split
          · split
            · split
              · exact cursorInv_clamp _
              · exact cursorInv_fallback _ (cursorInv_clamp _)
            · exact cursorInv_fallback _ (cursorInv_clamp _)
          · exact cursorInv_fallback _ h
        · exact cursorInv_fallback _ h

/-- C3. After any sequence of the modelled mutating operations (commands,
auto-advance, queue pushes and removals, queue clear, library appends,
cursor moves, the space-key handler), a state satisfying the cursor
invariant still satisfies it: each cursor is within bounds of its
collection, or 0 when the collection is empty — removals re-establish it
through the dedicated clamp step. -/
theorem c3_cursor_invariant_preserved (ops : List OpL) (st : AppStateL)
    (h : cursorInv st) : cursorInv (runOps ops st) := by
  induction ops generalizing st with
  | nil => exact h
  | cons op rest ih =>
      rw [runOps, List.foldl_cons]
      exact ih _ (cursorInv_applyOp st op h)

/-- C3 witness: the invariant after a concrete mutation sequence from the
initial state. -/
theorem c3_cursor_invariant_witness :
    cursorInv (runOps
      [OpL.queuePushDownloading "t" "u",
       OpL.downloadComplete "u" "t" "a" "f.mp3" 60,
       OpL.moveDown,
       OpL.autoAdv alwaysOkFs true 0]
      AppStateL.init) :=
  c3_cursor_invariant_preserved _ AppStateL.init
    ⟨Or.inr ⟨rfl, rfl⟩, Or.inr ⟨rfl, rfl⟩⟩

/-- Removing a queue entry cannot introduce a new status. -/
theorem statusInv_eraseQueue (st : AppStateL) (i : ℕ) (h : statusInv st) :
    statusInv { st with queue := st.queue.eraseIdx i } := by
  intro s hs
  refine h s ?_
  rcases List.mem_append.mp hs with hq | hl
  · exact List.mem_append.mpr (Or.inl ((st.queue.eraseIdx_sublist i).subset hq))
  · exact List.mem_append.mpr (Or.inr hl)

/-- next_ready_song only removes from the queue, so statuses stay valid. -/
theorem statusInv_next_ready_song (st : AppStateL) (h : statusInv st) :
    statusInv st.next_ready_song.2 := by
  rw [AppStateL.next_ready_song]
  rcases hp : position isReady st.queue with _ | pos
  · exact h
  · exact statusInv_eraseQueue st pos h

/-- The download-completion update only assigns status Ready. -/
theorem statusInv_downloadCompleteUpdate (url title artist path : String)
    (dur : ℚ) (l : List SongL)
    (h : ∀ s ∈ l, s.status = SongStatus.Queued ∨
      s.status = SongStatus.Downloading ∨ s.status = SongStatus.Ready) :
    ∀ s ∈ downloadCompleteUpdate url title artist path dur l,
      s.status = SongStatus.Queued ∨ s.status = SongStatus.Downloading ∨
        s.status = SongStatus.Ready := by
  induction l with
  | nil => intro s hs; cases hs
  | cons x rest ih =>
      intro s hs
      rw [downloadCompleteUpdate] at hs
      by_cases hx : x.url = url
      · rw [if_pos hx] at hs
        rcases List.mem_cons.mp hs with hs1 | hs2
        · subst hs1; exact Or.inr (Or.inr rfl)
        · exact h s (List.mem_cons_of_mem _ hs2)
      · rw [if_neg hx] at hs
        rcases List.mem_cons.mp hs with hs1 | hs2
        · subst hs1; exact h s (List.mem_cons_self _ _)
        · exact ih (fun y hy => h y (List.mem_cons_of_mem _ hy)) s hs2

/-- Every modelled operation preserves the status invariant: only Queued,
Downloading and Ready are ever assigned. -/
theorem statusInv_applyOp (st : AppStateL) (op : OpL) (h : statusInv st) :
    statusInv (applyOp st op) := by
  cases op with
  | cmd now c => cases c <;> exact h
  | autoAdv fs pe now =>
      show statusInv (autoAdvance fs pe now st dummyPlayer).state
      rw [autoAdvance]
      split
      · split
        · rename_i song st1 heq
          have h1 : statusInv st1 := by
            have h2 := statusInv_next_ready_song st h
            rw [heq] at h2
            exact h2
          split
          · split
            · exact h1
            · exact h1
          · exact h1
        · rename_i st1 heq
          have h1 : statusInv st1 := by
            have h2 := statusInv_next_ready_song st h
            rw [heq] at h2
            exact h2
          exact h1
      · exact h
  | queuePushDownloading title url =>
      intro s hs
      rcases List.mem_append.mp hs with hq | hl
      · rcases List.mem_append.mp hq with hq1 | hq2
        · exact h s (List.mem_append.mpr (Or.inl hq1))
        · rcases List.mem_singleton.mp hq2 with rfl
          exact Or.inr (Or.inl rfl)
      · exact h s (List.mem_append.mpr (Or.inr hl))
  | queuePushCachedReady title artist url path dur =>
      intro s hs
      rcases List.mem_append.mp hs with hq | hl
      · rcases List.mem_append.mp hq with hq1 | hq2
        · exact h s (List.mem_append.mpr (Or.inl hq1))
        · rcases List.mem_singleton.mp hq2 with rfl
          exact Or.inr (Or.inr rfl)
      · exact h s (List.mem_append.mpr (Or.inr hl))
  | clearQueue =>
      intro s hs
      rcases List.mem_append.mp hs with hq | hl
      · cases hq
      · exact h s (List.mem_append.mpr (Or.inr hl))
  | downloadComplete url title artist path dur =>
      intro s hs
      rcases List.mem_append.mp hs with hq | hl
      · exact statusInv_downloadCompleteUpdate url title artist path dur
          st.queue (fun y hy => h y (List.mem_append.mpr (Or.inl hy))) s hq
      · exact h s (List.mem_append.mpr (Or.inr hl))
  | libraryPanelAdd title artist url path dur =>
      show statusInv (if st.library.any (fun song => decide (song.url = url))
        then st
        else { st with library := st.library ++ [cachedReadySong title artist url path dur] })
      split
      · exact h
      · intro s hs
        rcases List.mem_append.mp hs with hq | hl
        · exact h s (List.mem_append.mpr (Or.inl hq))
        · rcases List.mem_append.mp hl with hl1 | hl2
          · exact h s (List.mem_append.mpr (Or.inr hl1))
          · rcases List.mem_singleton.mp hl2 with rfl
            exact Or.inr (Or.inr rfl)
  | restoreLibrary title artist url path dur =>
      intro s hs
      rcases List.mem_append.mp hs with hq | hl
      · exact h s (List.mem_append.mpr (Or.inl hq))
      · rcases List.mem_append.mp hl with hl1 | hl2
        · exact h s (List.mem_append.mpr (Or.inr hl1))
        · rcases List.mem_singleton.mp hl2 with rfl
          exact Or.inr (Or.inr rfl)
  | moveUp =>
      show statusInv st.move_cursor_up
      rw [AppStateL.move_cursor_up]
      split
      · split
        · exact h
        · exact h
      · split
        · exact h
        · exact h
  | moveDown =>
      show statusInv st.move_cursor_down
      rw [AppStateL.move_cursor_down]
      split
      · split
        · exact h
        · exact h
      · split
        · exact h
        · exact h
  | panelLeft => exact h
  | panelRight => exact h
  | keySkip => exact h
  | keyPauseToggle => exact h
  | volUp => exact h
  | volDown => exact h
  | space fs now =>
      show statusInv (spaceKey fs now st dummyPlayer).1
      have herase : ∀ i : ℕ, statusInv (AppStateL.clamp_cursors
          { st with queue := st.queue.eraseIdx i }) :=
        fun i => statusInv_eraseQueue st i h
      rw [spaceKey]
      split
      · rw [spacePlayLibrary]
        split
        · split
          · split
            · split
              · exact h
              · show statusInv (pauseToggleFallback st)
                rw [pauseToggleFallback]
                split
                · exact h
                · exact h
            · show statusInv (pauseToggleFallback st)
              rw [pauseToggleFallback]
              split
              · exact h
              · exact h
          · show statusInv (pauseToggleFallback st)
            rw [pauseToggleFallback]
            split
            · exact h
            · exact h
        · show statusInv (pauseToggleFallback st)
          rw [pauseToggleFallback]
          split
          · exact h
          · exact h
      · rw [spacePlayQueue]
        split
        · split
          · split
            · split
              · exact herase st.queue_cursor
              · show statusInv (pauseToggleFallback (AppStateL.clamp_cursors
                    { st with queue := st.queue.eraseIdx st.queue_cursor }))
                rw [pauseToggleFallback]
                split
                · exact herase st.queue_cursor
                · exact herase st.queue_cursor
            · show statusInv (pauseToggleFallback (AppStateL.clamp_cursors
                  { st with queue := st.queue.eraseIdx st.queue_cursor }))
              rw [pauseToggleFallback]
              split
              · exact herase st.queue_cursor
              · exact herase st.queue_cursor
          · show statusInv (pauseToggleFallback st)
            rw [pauseToggleFallback]
            split
            · exact h
            · exact h
        · show statusInv (pauseToggleFallback st)
          rw [pauseToggleFallback]
          split
          · exact h
          · exact h

/-- C10. In every state reachable from the initial AppState by the
modelled operations, every song in the queue or library has status Queued,
Downloading or Ready: no operation of the source ever assigns Playing or
Played, so those two variants are unreachable in the collections. -/
theorem c10_no_playing_or_played_status (ops : List OpL) (s : SongL)
    (hs : s ∈ (runOps ops AppStateL.init).queue ++ (runOps ops AppStateL.init).library) :
    s.status = SongStatus.Queued ∨ s.status = SongStatus.Downloading ∨
      s.status = SongStatus.Ready := by
  have h0 : statusInv AppStateL.init := by intro y hy; cases hy
  have hrun : ∀ (l : List OpL) (st : AppStateL), statusInv st →
      statusInv (runOps l st) := by
    intro l
    induction l with
    | nil => intro st hst; exact hst
    | cons op rest ih =>
        intro st hst
        rw [runOps, List.foldl_cons]
        exact ih _ (statusInv_applyOp st op hst)
  exact hrun ops AppStateL.init h0 s hs

/-- C10 witness: a concrete reachable state with a Downloading entry. -/
theorem c10_no_playing_or_played_witness :
    (downloadingPlaceholder "t" "u").status = SongStatus.Queued ∨
      (downloadingPlaceholder "t" "u").status = SongStatus.Downloading ∨
        (downloadingPlaceholder "t" "u").status = SongStatus.Ready :=
  c10_no_playing_or_played_status [OpL.queuePushDownloading "t" "u"]
    (downloadingPlaceholder "t" "u") (by decide)

/-- If position finds index i, the element there satisfies the predicate. -/
theorem position_get {α : Type} (p : α → Bool) (l : List α) (i : ℕ)
    (h : position p l = some i) : ∃ a, l[i]? = some a ∧ p a = true := by
  induction l generalizing i with
  | nil => cases h
  | cons x xs ih =>
      rw [position] at h
      by_cases hx : p x
      · rw [if_pos hx] at h
        cases h
        exact ⟨x, by simp, hx⟩
      · rw [if_neg hx] at h
        rcases hmap : position p xs with _ | j
        · rw [hmap] at h; cases h
        · rw [hmap] at h
          simp only [Option.map_some'] at h
          cases h
          obtain ⟨a, ha, hpa⟩ := ih j hmap
          exact ⟨a, by simpa [List.getElem?_cons_succ] using ha, hpa⟩

/-- Erasing an element that fails the filter predicate leaves the filtered
list unchanged. -/
theorem filter_eraseIdx {α : Type} (q : α → Bool) (l : List α) (i : ℕ)
    (a : α) (ha : l[i]? = some a) (hqa : q a = false) :
    (l.eraseIdx i).filter q = l.filter q := by
  induction l generalizing i with
  | nil => cases ha
  | cons x xs ih =>
      cases i with
      | zero =>
          have hx : x = a := by simpa using ha
          subst hx
          simp [List.eraseIdx, List.filter_cons, hqa]
      | succ j =>
          have ha2 : xs[j]? = some a := by simpa using ha
          rw [List.eraseIdx_cons_succ, List.filter_cons, List.filter_cons,
            ih j ha2]

/-- C4. Auto-advance never starts playback of a song whose status is not
Ready, and never removes a non-Ready song from the queue: the queue's
non-Ready entries are exactly preserved (skipped in place), and any song it
starts playing is Ready. -/
theorem c4_auto_advance_only_ready (fs : String → Option PlayError)
    (pe : Bool) (now : ℤ) (st : AppStateL) (player : PlayerL) :
    ((autoAdvance fs pe now st player).state.queue.filter (fun s => !isReady s)
        = st.queue.filter (fun s => !isReady s))
  ∧ (∀ s, (autoAdvance fs pe now st player).played = some s →
      s.status = SongStatus.Ready) := by
  rw [autoAdvance]
  split
  · split
    · rename_i song st1 heq
      rw [AppStateL.next_ready_song] at heq
      rcases hp : position isReady st.queue with _ | pos
      · rw [hp] at heq
        cases heq
      · rw [hp] at heq
        have hget : st.queue[pos]? = some song := by
          simpa using congrArg Prod.fst heq
        have hst1 : AppStateL.clamp_cursors
            { st with queue := st.queue.eraseIdx pos } = st1 := by
          simpa using congrArg Prod.snd heq
        obtain ⟨a, ha, hpa⟩ := position_get isReady st.queue pos hp
        have haz : a = song := by
          rw [hget] at ha
          cases ha
          rfl
        subst haz
        have hready : a.status = SongStatus.Ready := of_decide_eq_true hpa
        have hq1 : st1.queue = st.queue.eraseIdx pos := by
          rw [← hst1]
          rfl
        have hfil : st1.queue.filter (fun s => !isReady s)
            = st.queue.filter (fun s => !isReady s) := by
          rw [hq1]
          exact filter_eraseIdx _ st.queue pos a hget
            (by simp [isReady, hready])
        split
        · split
          · exact ⟨hfil, fun s hs => by cases hs; exact hready⟩
          · exact ⟨hfil, fun s hs => by cases hs⟩
        · exact ⟨hfil, fun s hs => by cases hs⟩
    · rename_i st1 heq
      rw [AppStateL.next_ready_song] at heq
      rcases hp : position isReady st.queue with _ | pos
      · rw [hp] at heq
        have hst : st = st1 := by
          cases heq
          rfl
        subst hst
        exact ⟨rfl, fun s hs => by cases hs⟩
      · rw [hp] at heq
        obtain ⟨a, ha, hpa⟩ := position_get isReady st.queue pos hp
        exfalso
        have hnone : st.queue[pos]? = none := by
          simpa using congrArg Prod.fst heq
        rw [hnone] at ha
        cases ha
  · exact ⟨rfl, fun s hs => by cases hs⟩

/-- C4 witness: a concrete tick on which auto-advance starts a Ready song,
instantiating both conjuncts. -/
theorem c4_auto_advance_only_ready_witness :
    ((autoAdvance alwaysOkFs true 0
        { AppStateL.init with
          queue := [cachedReadySong "t" "a" "u" "f.mp3" 60],
          current := some someNowPlaying } dummyPlayer).state.queue.filter
          (fun s => !isReady s)
        = ({ AppStateL.init with
          queue := [cachedReadySong "t" "a" "u" "f.mp3" 60],
          current := some someNowPlaying } : AppStateL).queue.filter
          (fun s => !isReady s))
  ∧ (cachedReadySong "t" "a" "u" "f.mp3" 60).status = SongStatus.Ready :=
  ⟨(c4_auto_advance_only_ready alwaysOkFs true 0
      { AppStateL.init with
        queue := [cachedReadySong "t" "a" "u" "f.mp3" 60],
        current := some someNowPlaying } dummyPlayer).1,
    (c4_auto_advance_only_ready alwaysOkFs true 0
      { AppStateL.init with
        queue := [cachedReadySong "t" "a" "u" "f.mp3" 60],
        current := some someNowPlaying } dummyPlayer).2
      (cachedReadySong "t" "a" "u" "f.mp3" 60) (by decide)⟩

/-- C8. Over any sequence of analyze calls on one analyzer and any input
signal (any spectral kernel, any buffers), the fired beat times are
pairwise separated by more than 200 ms — the flag never fires on two
calls less than 200 ms of wall-clock time apart — and a beat fires only
when the current bass exceeds 1.5 times the rolling average of the (at
most 20) retained bass values, exceeds the absolute floor 0.15, and more
than 200 ms have elapsed since the last fired beat. -/
theorem c8_beat_cooldown_and_fire_conditions :
    (∀ (kernel : List ℚ → SpectralOut) (calls : List (List ℚ × ℤ))
        (st : AnalyzerStateL),
      List.Pairwise (fun a b : ℤ => a + 200 < b)
        (beatTimes (runAnalyzer kernel calls st)))
  ∧ (∀ (bass : ℚ) (now : ℤ) (st : AnalyzerStateL),
      (beatStep bass now st).1 = true →
        rollingAvg (pushHistory bass st.bass_history) * (3 / 2) < bass
      ∧ (3 / 20 : ℚ) < bass
      ∧ (200 : ℤ) < now - st.last_beat) := by
  constructor
  · intro kernel calls st
    exact (beatTimes_gap kernel calls st).1
  · intro bass now st h
    have hf : beatFires bass now st = true := h
    rw [beatFires] at hf
    simp only [Bool.and_eq_true, decide_eq_true_eq] at hf
    exact ⟨hf.1.1, hf.1.2, hf.2⟩

/-- C8 witness: the cooldown conclusion on a concrete two-call trace that
fires a beat, and the fire conditions at a concrete firing step. -/
theorem c8_beat_cooldown_witness :
    List.Pairwise (fun a b : ℤ => a + 200 < b)
      (beatTimes (runAnalyzer demoKernel demoCalls (AnalyzerStateL.init 0)))
  ∧ (rollingAvg (pushHistory 1 demoAnalyzerState.bass_history) * (3 / 2) < 1
    ∧ (3 / 20 : ℚ) < 1
    ∧ (200 : ℤ) < 300 - demoAnalyzerState.last_beat) :=
  ⟨c8_beat_cooldown_and_fire_conditions.1 demoKernel demoCalls
      (AnalyzerStateL.init 0),
    c8_beat_cooldown_and_fire_conditions.2 1 300 demoAnalyzerState
      (by norm_num [beatStep, beatFires, pushHistory, rollingAvg,
        demoAnalyzerState])⟩

/-- C9. Whenever the shared sample buffer holds fewer than FFT_SIZE = 2048
samples, analyze returns the all-zero feature snapshot (rms, bass, mid and
treble all zero and the beat flag false), for every kernel, clock and
analyzer state, and leaves the analyzer state untouched. -/
theorem c9_short_buffer_zero_snapshot (kernel : List ℚ → SpectralOut)
    (buf : List ℚ) (now : ℤ) (st : AnalyzerStateL)
    (h : buf.length < FFT_SIZE) :
    analyze kernel buf now st = (zeroFeatures, st)
  ∧ zeroFeatures = { rms := 0, bass := 0, mid := 0, treble := 0,
                     is_beat := false } := by
  rw [analyze, if_pos h]
  exact ⟨rfl, rfl⟩

/-- C9 witness: a concrete short buffer (3 samples) yields the zero
snapshot. -/
theorem c9_short_buffer_zero_witness :
    analyze demoKernel [1, 1, 1] 0 (AnalyzerStateL.init 0)
      = (zeroFeatures, AnalyzerStateL.init 0)
  ∧ zeroFeatures = { rms := 0, bass := 0, mid := 0, treble := 0,
                     is_beat := false } :=
  c9_short_buffer_zero_snapshot demoKernel [1, 1, 1] 0 (AnalyzerStateL.init 0)
    (by decide)

end Vibeplayer
